import Mathlib

/-!
The irodsShare pre-read microservice plugin.

A shallow embedding of `src/irodsShare_preRead.cpp`: the microservice
`irods_irodsShare_read` and the reserved entry point `plugin_factory`.

The C++ file has two functions inside one C-linkage block.  Both are
straight-line code that call into the host library (`fillStrInMsParam`, the
`irods::ms_table_entry` class).  The host headers are not part of the
repository, so the host types and primitives are modelled from the
specification and marked as such; the two functions of the repository are
translated statement by statement.

Stateful code is rendered as explicit state passing:

* the microservice works on a state `(output, context, global state)`;
* the factory works on a heap of table entries, with pointers as addresses.
-/

namespace IrodsShare

/-! ## Host data model -/

/-- Modelled from the spec: the typed value held by an output parameter
container.  The declaration of the container lives in the host header
`msParam.hpp`, which is absent; the spec describes it as "capable of holding
one typed value (here, a text string)".  Three representative types are
given so that prior content of another type than text can be expressed. -/
inductive MsValue where
  | text (s : String)
  | integer (n : Int)
  | bytes (b : List Nat)
deriving DecidableEq, Repr

/-- Modelled from the spec: `msParam_t`, the output parameter container of
the host header `msParam.hpp` (absent).  It holds at most one typed value;
`none` is the freshly-initialized, empty container. -/
structure msParam_t where
  content : Option MsValue
deriving DecidableEq, Repr

/-- The text held by a container, when it holds a text value. -/
def msParam_t.text? (p : msParam_t) : Option String :=
  match p.content with
  | some (MsValue.text s) => some s
  | _ => none

/-- A C string: the characters before the terminating NUL. -/
abbrev CString := List Char

/-- The C++ call `std::string::c_str()`, read as a C string: a consumer of
the returned pointer sees the characters up to the first NUL. -/
def c_str (s : String) : CString :=
  s.toList.takeWhile (fun c => c != Char.ofNat 0)

/-- Modelled from the spec: `fillStrInMsParam`, the host's "standard
parameter-filling primitive" (declared in `msParam.hpp`, absent).  It stores
the given text into the container, "overwriting any prior content". -/
def fillStrInMsParam (_msParam : msParam_t) (myStr : CString) : msParam_t :=
  { content := some (MsValue.text (String.mk myStr)) }

/-! ## The microservice -/

/-- The state a microservice call runs in: the object behind the `_out`
pointer, the object behind the `_rei` pointer, and the rest of the process
state.  The type `ruleExecInfo_t` of the execution context is declared in a
host header that is absent, and so is whatever the process state consists
of; both are type parameters. -/
structure MsState (ruleExecInfo_t G : Type) where
  out : msParam_t
  rei : ruleExecInfo_t
  globals : G

/-- The microservice of `irodsShare_preRead.cpp`, lines 17 to 22:
```
int irods_irodsShare_read( msParam_t* _out, ruleExecInfo_t* _rei ) {
    std::string my_str = "Hello World!";
    fillStrInMsParam( _out, my_str.c_str() );
    return 0;
}
```
It returns the status code together with the state after the call. -/
def irods_irodsShare_read {ruleExecInfo_t G : Type} (s : MsState ruleExecInfo_t G) :
    Int × MsState ruleExecInfo_t G :=
  let my_str : String := "Hello World!"
  let s1 : MsState ruleExecInfo_t G := { s with out := fillStrInMsParam s.out (c_str my_str) }
  (0, s1)

/-! ## The registration table and the heap it is allocated on -/

/-- Modelled from the spec: `irods::ms_table_entry`, the registration table
entry of the host header `irods_ms_plugin.hpp` (absent): "a host-defined
descriptor mapping an operation name (a string key ...) to a callable
implementation and declaring its expected user-supplied parameter count".
The implementation is recorded by name. -/
structure ms_table_entry where
  num_args : Nat
  operations : List (String × String)
deriving DecidableEq, Repr

/-- A pointer to a table entry: an address, with `0` the null pointer. -/
abbrev Ptr := Nat

/-- The null pointer test. -/
def Ptr.isNull (p : Ptr) : Bool := p == 0

/-- The heap of table entries: the object at address `i + 1` is the `i`-th
element. -/
structure Heap where
  objs : List ms_table_entry
deriving DecidableEq, Repr

/-- Reading through a pointer; `none` for the null pointer and for an address
that was never allocated. -/
def Heap.deref (h : Heap) (p : Ptr) : Option ms_table_entry :=
  if p = 0 then none else h.objs[p - 1]?

/-- The C++ expression `new T(...)` for an already constructed value: the
object is placed at a fresh address, which is returned.  A failing
allocation throws in C++ and is not modelled. -/
def Heap.alloc (h : Heap) (o : ms_table_entry) : Ptr × Heap :=
  (h.objs.length + 1, { objs := h.objs ++ [o] })

/-- Updating the object behind a pointer in place; nothing happens for a
pointer that designates no object. -/
def Heap.update (h : Heap) (p : Ptr) (f : ms_table_entry → ms_table_entry) : Heap :=
  if p = 0 then h else { objs := h.objs.modify f (p - 1) }

/-- Modelled from the spec: the constructor `irods::ms_table_entry(int)`
(host code, absent): an entry "declaring its expected user-supplied
parameter count", with no operation registered yet. -/
def ms_table_entry.new (n : Nat) : ms_table_entry :=
  { num_args := n, operations := [] }

/-- Modelled from the spec: the method `add_operation(key, name)` of the
host class (absent), which "registers a single operation" under a dispatch
key bound to an implementation name.  Called through a pointer, it changes
the pointed-to entry in place. -/
def add_operation (h : Heap) (this : Ptr) (key fcn_name : String) : Heap :=
  h.update this (fun e => { e with operations := e.operations ++ [(key, fcn_name)] })

/-- The factory of `irodsShare_preRead.cpp`, lines 28 to 45:
```
irods::ms_table_entry*  plugin_factory() {
    irods::ms_table_entry* msvc = new irods::ms_table_entry( 1 );
    msvc->add_operation( "irods_irodsShare_read" , "irods_irodsShare_read" );
    return msvc;
}
```
It returns the pointer together with the heap after the call. -/
def plugin_factory (h : Heap) : Ptr × Heap :=
  let (msvc, h1) := h.alloc (ms_table_entry.new 1)
  let h2 := add_operation h1 msvc "irods_irodsShare_read" "irods_irodsShare_read"
  (msvc, h2)

/-- The table a factory call hands to the host: what its returned pointer
designates in the heap it leaves behind. -/
def returned_table (h : Heap) : Option ms_table_entry :=
  (plugin_factory h).2.deref (plugin_factory h).1

/-! ## What the host does with the table -/

/-- The functions the shared object exports with C linkage: the two
functions of the C-linkage block of `irodsShare_preRead.cpp`, each with the
signature it is declared with. -/
inductive Export (ruleExecInfo_t G : Type) where
  | microservice (f : MsState ruleExecInfo_t G → Int × MsState ruleExecInfo_t G)
  | factory (f : Heap → Ptr × Heap)

/-- Symbol lookup in the shared object, by exported name. -/
def exported_symbol {ruleExecInfo_t G : Type} (name : String) :
    Option (Export ruleExecInfo_t G) :=
  if name = "irods_irodsShare_read" then some (Export.microservice irods_irodsShare_read)
  else if name = "plugin_factory" then some (Export.factory plugin_factory)
  else none

/-- The implementation name a table binds to a dispatch key. -/
def ms_table_entry.implementation (t : ms_table_entry) (key : String) : Option String :=
  t.operations.lookup key

/-- Modelled from the spec: dispatch by the host (host code, absent).  The
microservice function is "located by the name string recorded in the
registration table, not by a fixed ABI name - the host resolves it via that
table at dispatch time", and is then invoked on the output handle and the
context. -/
def dispatch {ruleExecInfo_t G : Type} (t : ms_table_entry) (key : String)
    (s : MsState ruleExecInfo_t G) : Option (Int × MsState ruleExecInfo_t G) :=
  match (t.implementation key).bind exported_symbol with
  | some (Export.microservice f) => some (f s)
  | _ => none

/-! ## Auxiliary facts about the heap -/

theorem modify_snoc (l : List ms_table_entry) (a : ms_table_entry)
    (f : ms_table_entry → ms_table_entry) :
    (l ++ [a]).modify f l.length = l ++ [f a] := by
  induction l with
  | nil => rfl
  | cons x xs ih =>
    simp only [List.modify] at ih
    simp [List.modify, ih]

theorem plugin_factory_eq (h : Heap) :
    plugin_factory h = (h.objs.length + 1,
      { objs := h.objs ++
          [ms_table_entry.mk 1 [("irods_irodsShare_read", "irods_irodsShare_read")]] }) := by
  simp [plugin_factory, Heap.alloc, add_operation, Heap.update, modify_snoc,
    ms_table_entry.new]

theorem deref_snoc_last (l : List ms_table_entry) (a : ms_table_entry) :
    Heap.deref { objs := l ++ [a] } (l.length + 1) = some a := by
  simp [Heap.deref]

theorem deref_snoc_old (l : List ms_table_entry) (a : ms_table_entry) (p : Nat)
    (hp : p ≤ l.length) :
    Heap.deref { objs := l ++ [a] } p = Heap.deref { objs := l } p := by
  unfold Heap.deref
  by_cases h0 : p = 0
  · simp [h0]
  · simp only [h0, if_false]
    have hlt : p - 1 < l.length := by omega
    rw [List.getElem?_append_left hlt]

theorem deref_update_other (h : Heap) (p q : Nat) (f : ms_table_entry → ms_table_entry)
    (hpq : p ≠ q) : (h.update p f).deref q = h.deref q := by
  unfold Heap.update Heap.deref
  by_cases hp : p = 0
  · simp [hp]
  · by_cases hq : q = 0
    · simp [hq]
    · have hne : p - 1 ≠ q - 1 := by omega
      simp [hp, hq, List.getElem?_modify, hne]

theorem returned_table_eq (h : Heap) :
    returned_table h =
      some (ms_table_entry.mk 1 [("irods_irodsShare_read", "irods_irodsShare_read")]) := by
  simp [returned_table, plugin_factory_eq, deref_snoc_last]

theorem read_eq {ruleExecInfo_t G : Type} (s : MsState ruleExecInfo_t G) :
    irods_irodsShare_read s =
      (0, { out := { content := some (MsValue.text "Hello World!") },
            rei := s.rei, globals := s.globals }) := by
  rfl

/-! ## The microservice: what a call returns and writes -/

/-- C1: on a freshly-initialized (empty) output handle, with any execution
context and any process state, the microservice returns status 0 and leaves
the handle holding a text value that is exactly "Hello World!", twelve
characters long. -/
theorem read_on_fresh_output {ruleExecInfo_t G : Type} (c : ruleExecInfo_t) (g : G) :
    (irods_irodsShare_read (MsState.mk (msParam_t.mk none) c g)).1 = 0 ∧
    (irods_irodsShare_read (MsState.mk (msParam_t.mk none) c g)).2.out =
      msParam_t.mk (some (MsValue.text "Hello World!")) ∧
    (irods_irodsShare_read (MsState.mk (msParam_t.mk none) c g)).2.out.text? =
      some "Hello World!" ∧
    (irods_irodsShare_read (MsState.mk (msParam_t.mk none) c g)).2.out.text?.map String.length =
      some 12 := by
  exact ⟨rfl, rfl, rfl, rfl⟩

/-- C3: whatever value an output handle held before the call (a text, an
integer, bytes), after the call it holds exactly the text "Hello World!";
the resulting handle is the same as the one obtained from any other prior
handle state, empty or not. -/
theorem read_overwrites_prior_content {ruleExecInfo_t G : Type} (v : MsValue)
    (c : ruleExecInfo_t) (g : G) :
    (irods_irodsShare_read (MsState.mk (msParam_t.mk (some v)) c g)).2.out =
      msParam_t.mk (some (MsValue.text "Hello World!")) ∧
    ∀ o : msParam_t,
      (irods_irodsShare_read (MsState.mk o c g)).2.out =
        (irods_irodsShare_read (MsState.mk (msParam_t.mk (some v)) c g)).2.out := by
  refine ⟨rfl, ?_⟩
  intro o
  rfl

/-- C4: the microservice never signals an error: in every state, that is for
every output handle, every context and every process state, the status it
returns is 0. -/
theorem read_status_always_zero {ruleExecInfo_t G : Type} (s : MsState ruleExecInfo_t G) :
    (irods_irodsShare_read s).1 = 0 := by
  rfl

/-- C5: context independence as a two-run statement: from the same output
handle state, two calls with two different execution contexts return the
same status and leave the same output handle content. -/
theorem read_context_independent {ruleExecInfo_t G : Type} (o : msParam_t)
    (c1 c2 : ruleExecInfo_t) (g : G) :
    (irods_irodsShare_read (MsState.mk o c1 g)).1 =
      (irods_irodsShare_read (MsState.mk o c2 g)).1 ∧
    (irods_irodsShare_read (MsState.mk o c1 g)).2.out =
      (irods_irodsShare_read (MsState.mk o c2 g)).2.out := by
  exact ⟨rfl, rfl⟩

/-- C7: frame of the microservice call: with the state given as (output,
context, global state), the context and the global state after the call are
those before the call; only the output handle changes. -/
theorem read_frame {ruleExecInfo_t G : Type} (s : MsState ruleExecInfo_t G) :
    (irods_irodsShare_read s).2.rei = s.rei ∧
    (irods_irodsShare_read s).2.globals = s.globals := by
  exact ⟨rfl, rfl⟩

/-! ## The factory: the shape of the table it returns -/

/-- C2: in every heap, the pointer returned by the factory is not null and
designates a table that contains exactly one registered operation, whose
dispatch key is "irods_irodsShare_read", and whose declared user-parameter
arity is 1. -/
theorem plugin_factory_table_shape (h : Heap) :
    Ptr.isNull (plugin_factory h).1 = false ∧
    ∃ t : ms_table_entry,
      (plugin_factory h).2.deref (plugin_factory h).1 = some t ∧
      t.operations.length = 1 ∧
      t.operations.map Prod.fst = ["irods_irodsShare_read"] ∧
      t.num_args = 1 := by
  refine ⟨?_, ms_table_entry.mk 1 [("irods_irodsShare_read", "irods_irodsShare_read")],
    ?_, rfl, rfl, rfl⟩
  · simp [plugin_factory_eq, Ptr.isNull]
  · exact returned_table_eq h

/-- C6: the table built by the factory binds the dispatch key
"irods_irodsShare_read" to the implementation name "irods_irodsShare_read",
the same string; that name is an exported symbol, the microservice function;
and dispatching the key through the table on any output handle, context and
process state writes "Hello World!" into the handle and returns 0. -/
theorem dispatch_through_factory_table {ruleExecInfo_t G : Type} (h : Heap)
    (o : msParam_t) (c : ruleExecInfo_t) (g : G) :
    ∃ t : ms_table_entry,
      returned_table h = some t ∧
      t.operations = [("irods_irodsShare_read", "irods_irodsShare_read")] ∧
      t.implementation "irods_irodsShare_read" = some "irods_irodsShare_read" ∧
      @exported_symbol ruleExecInfo_t G "irods_irodsShare_read" =
        some (Export.microservice irods_irodsShare_read) ∧
      dispatch t "irods_irodsShare_read" (MsState.mk o c g) =
        some (0, MsState.mk (msParam_t.mk (some (MsValue.text "Hello World!"))) c g) := by
  refine ⟨ms_table_entry.mk 1 [("irods_irodsShare_read", "irods_irodsShare_read")],
    returned_table_eq h, rfl, ?_, ?_, ?_⟩
  · decide
  · simp [exported_symbol]
  · have hk : (ms_table_entry.mk 1
        [("irods_irodsShare_read", "irods_irodsShare_read")]).implementation
          "irods_irodsShare_read" = some "irods_irodsShare_read" := by decide
    simp [dispatch, hk, exported_symbol, read_eq]

/-- C8: two calls of the factory, the second in the heap left by the first,
return two tables that are structurally identical (arity 1, the one
operation with the same key and implementation name); the two pointers
differ; the second call leaves the first table as it was; a later change
made through the first pointer does not reach the second table; and the
table returned does not depend on the heap the factory is called in. -/
theorem plugin_factory_twice (h : Heap) :
    returned_table h =
      some (ms_table_entry.mk 1 [("irods_irodsShare_read", "irods_irodsShare_read")]) ∧
    returned_table (plugin_factory h).2 = returned_table h ∧
    (plugin_factory (plugin_factory h).2).1 ≠ (plugin_factory h).1 ∧
    (plugin_factory (plugin_factory h).2).2.deref (plugin_factory h).1 =
      (plugin_factory h).2.deref (plugin_factory h).1 ∧
    (∀ key name : String,
      (add_operation (plugin_factory (plugin_factory h).2).2 (plugin_factory h).1
          key name).deref (plugin_factory (plugin_factory h).2).1 =
        returned_table (plugin_factory h).2) ∧
    ∀ h2 : Heap, returned_table h2 = returned_table h := by
  refine ⟨returned_table_eq h, ?_, ?_, ?_, ?_, ?_⟩
  · rw [returned_table_eq, returned_table_eq]
  · simp [plugin_factory_eq]
  · rw [plugin_factory_eq (plugin_factory h).2]
    apply deref_snoc_old
    simp [plugin_factory_eq]
  · intro key name
    unfold add_operation
    rw [deref_update_other]
    · rfl
    · simp [plugin_factory_eq]
  · intro h2
    rw [returned_table_eq, returned_table_eq]

end IrodsShare
